import Mathlib

/-!
Shallow embedding of the local file-storage module (`src/lib/file-storage.ts`)
of the repository, together with proofs about its operations.

The filesystem is modelled as a finite association of absolute path strings to
byte lists plus a set of directories.  Each operation of the module is
translated to a Lean function threading that state explicitly; the possibility
of spurious I/O failures (permissions, disk errors) is captured by an explicit
environment of failure flags, so that the error-handling structure of the code
(try/catch wrappers) is preserved.  `Date.now()` is modelled as an explicit
`timestamp : Nat` argument, stringified with `Nat.repr` as the template
literal does.  Node's `path.join` is modelled including its segment
normalisation (empty and `.` segments dropped, `..` popping the previous
segment), which matters for traversal behaviour.
-/

set_option maxRecDepth 10000

namespace FileStorage

/-- Bytes of a buffer are modelled as natural numbers. -/
abbrev Byte := Nat

/-- Splitting a character list at every occurrence of a separator, as
JavaScript `String.prototype.split` with a one-character separator does:
the result always has at least one (possibly empty) segment. -/
def splitOnChar (sep : Char) : List Char → List (List Char)
  | [] => [[]]
  | c :: cs =>
    if c = sep then [] :: splitOnChar sep cs
    else
      match splitOnChar sep cs with
      | [] => [[c]]
      | s :: rest => (c :: s) :: rest

/-- One step of Node `path.normalize` on a stack of path segments: empty and
`.` segments vanish, `..` pops the previous segment (at the root it is
dropped, as for absolute paths), anything else is pushed. -/
def normSeg (acc : List (List Char)) (seg : List Char) : List (List Char) :=
  if seg = [] ∨ seg = ['.'] then acc
  else if seg = ['.', '.'] then acc.dropLast
  else acc ++ [seg]

/-- Model of Node `path.join base rel` for an absolute `base`: concatenate
with a `/`, split into segments and normalise them. -/
def pathJoin (base rel : String) : String :=
  let segs := splitOnChar '/' (base ++ "/" ++ rel).data
  String.mk ('/' :: List.intercalate ['/'] (segs.foldl normSeg []))

/-- Base directory of the store: the default of `STORAGE_PATH` in the source. -/
def STORAGE_BASE_PATH : String := "/app/storage"

/-- The uploads folder, `path.join(STORAGE_BASE_PATH, "uploads")`. -/
def UPLOADS_FOLDER : String := pathJoin STORAGE_BASE_PATH "uploads"

/-- The character class `[a-zA-Z0-9.-]` kept by the sanitisation regex. -/
def isAllowedChar (c : Char) : Bool :=
  ('a' ≤ c && c ≤ 'z') || ('A' ≤ c && c ≤ 'Z') || ('0' ≤ c && c ≤ '9')
    || c = '.' || c = '-'

/-- Model of `fileName.replace(/[^a-zA-Z0-9.-]/g, "_")`. -/
def sanitizeName (s : String) : String :=
  String.mk (s.data.map (fun c => if isAllowedChar c then c else '_'))

/-- The relative path derived by `uploadFile` (lines 34-46 of the source):
`uploads/` followed by the timestamp and the sanitised name. -/
def uploadRelPath (timestamp : Nat) (fileName : String) : String :=
  "uploads/" ++ (Nat.repr timestamp ++ "-" ++ sanitizeName fileName)

/-- The relative path derived by `renameFile` (lines 118-124 of the source). -/
def renameRelPath (timestamp : Nat) (newFileName : String) : String :=
  "uploads/" ++ (Nat.repr timestamp ++ "-" ++ sanitizeName newFileName)

/-- The extension-to-MIME table of the `switch` in `getContentType`. -/
def extTable (ext : String) : String :=
  if ext = "pdf" then "application/pdf"
  else if ext = "png" then "image/png"
  else if ext = "jpg" then "image/jpeg"
  else if ext = "jpeg" then "image/jpeg"
  else if ext = "tiff" then "image/tiff"
  else if ext = "tif" then "image/tiff"
  else "application/octet-stream"

/-- Model of `getContentType`: lowercase the whole name, split on `.`, take
the last segment, and look it up in the switch table. -/
def getContentType (fileName : String) : String :=
  let lowered := fileName.data.map Char.toLower
  let ext := String.mk ((splitOnChar '.' lowered).getLastD [])
  if ext = "pdf" then "application/pdf"
  else if ext = "png" then "image/png"
  else if ext = "jpg" then "image/jpeg"
  else if ext = "jpeg" then "image/jpeg"
  else if ext = "tiff" then "image/tiff"
  else if ext = "tif" then "image/tiff"
  else "application/octet-stream"

/-- Error taxonomy of the module: one constructor per distinct thrown
message (`Storage initialization failed`, `File upload failed`,
`File not found`, `File read failed`, `File rename failed`). -/
inductive StoreError where
  | storageInit
  | upload
  | notFound
  | read
  | rename
deriving DecidableEq, Repr

/-- Filesystem state: files as an association of absolute paths to contents,
plus the set of existing directories. -/
structure FS where
  files : List (String × List Byte)
  dirs : List String
deriving DecidableEq, Repr

/-- Environment of spurious I/O failures: each flag makes the corresponding
primitive fail even when its precondition holds (permissions, disk errors). -/
structure FsEnv where
  mkdirFails : Bool
  writeFails : Bool
  readFails : Bool
  unlinkFails : Bool
  renameFails : Bool
  accessFails : String → Bool

/-- The environment in which no primitive fails spuriously. -/
def cleanEnv : FsEnv :=
  { mkdirFails := false, writeFails := false, readFails := false,
    unlinkFails := false, renameFails := false, accessFails := fun _ => false }

/-- Content of the file at an absolute path, when present. -/
def lookupFile (fs : FS) (p : String) : Option (List Byte) :=
  fs.files.lookup p

/-- Model of `fs.access`: succeeds when the path names an existing file or
directory and no spurious failure occurs. -/
def fsAccess (env : FsEnv) (fs : FS) (p : String) : Bool :=
  !env.accessFails p && ((lookupFile fs p).isSome || fs.dirs.contains p)

/-- Model of `fs.unlink`: fails when the file is absent or spuriously. -/
def fsUnlink (env : FsEnv) (fs : FS) (p : String) : Option FS :=
  if env.unlinkFails then none
  else if (lookupFile fs p).isSome then
    some { fs with files := fs.files.filter (fun e => e.1 != p) }
  else none

/-- Model of `fs.rename`: fails when the source is absent or spuriously;
on success the file moves to the destination, overwriting it. -/
def fsRename (env : FsEnv) (fs : FS) (src dst : String) : Option FS :=
  if env.renameFails then none
  else
    match lookupFile fs src with
    | some content =>
      some { fs with files :=
        (dst, content) ::
          (fs.files.filter (fun e => e.1 != src)).filter (fun e => e.1 != dst) }
    | none => none

/-- Model of `initializeStorage`: `fs.mkdir(UPLOADS_FOLDER, recursive)` creates
the base directory and the uploads folder; on failure the caught error is
rethrown as `StorageInitError`. -/
def initializeStorage (env : FsEnv) (fs : FS) : FS × Except StoreError Unit :=
  if env.mkdirFails then (fs, Except.error StoreError.storageInit)
  else ({ fs with dirs := STORAGE_BASE_PATH :: UPLOADS_FOLDER :: fs.dirs },
        Except.ok ())

/-- Model of `uploadFile`: initialise storage, derive the unique file name
from the timestamp and the sanitised name, write the buffer, and return the
relative path; any failure inside the `try` is caught and rethrown as
`UploadError`. -/
def uploadFile (env : FsEnv) (fs : FS) (buffer : List Byte) (fileName : String)
    (timestamp : Nat) : FS × Except StoreError String :=
  match initializeStorage env fs with
  | (fs1, Except.error _) => (fs1, Except.error StoreError.upload)
  | (fs1, Except.ok ()) =>
    if env.writeFails then (fs1, Except.error StoreError.upload)
    else
      ({ fs1 with files :=
          (pathJoin UPLOADS_FOLDER (Nat.repr timestamp ++ "-" ++ sanitizeName fileName),
            buffer) ::
            fs1.files.filter (fun e =>
              e.1 != pathJoin UPLOADS_FOLDER
                (Nat.repr timestamp ++ "-" ++ sanitizeName fileName)) },
       Except.ok (uploadRelPath timestamp fileName))

/-- Model of `getFilePath`: join the relative path to the base directory and
check accessibility; on failure throw `NotFoundError`. -/
def getFilePath (env : FsEnv) (fs : FS) (relativePath : String) :
    Except StoreError String :=
  if fsAccess env fs (pathJoin STORAGE_BASE_PATH relativePath) then
    Except.ok (pathJoin STORAGE_BASE_PATH relativePath)
  else Except.error StoreError.notFound

/-- Model of `readFile`: resolve through `getFilePath` and read the content;
the surrounding `try`/`catch` turns every failure, including the
`NotFoundError` thrown by `getFilePath`, into `ReadError`. -/
def readFile (env : FsEnv) (fs : FS) (relativePath : String) :
    Except StoreError (List Byte) :=
  match getFilePath env fs relativePath with
  | Except.ok fullPath =>
    match (if env.readFails then none else lookupFile fs fullPath) with
    | some buffer => Except.ok buffer
    | none => Except.error StoreError.read
  | Except.error _ => Except.error StoreError.read

/-- Model of `deleteFile`: unlink the resolved path; the `catch` swallows any
failure, so the call always returns normally. -/
def deleteFile (env : FsEnv) (fs : FS) (relativePath : String) :
    FS × Except StoreError Unit :=
  match fsUnlink env fs (pathJoin STORAGE_BASE_PATH relativePath) with
  | some fs1 => (fs1, Except.ok ())
  | none => (fs, Except.ok ())

/-- Model of `renameFile`: derive the new relative path from the timestamp and
the sanitised new name, rename the old absolute path to the new one, and
return the new relative path; any failure is rethrown as `RenameError`. -/
def renameFile (env : FsEnv) (fs : FS) (oldPath : String) (newFileName : String)
    (timestamp : Nat) : FS × Except StoreError String :=
  match fsRename env fs (pathJoin STORAGE_BASE_PATH oldPath)
      (pathJoin STORAGE_BASE_PATH (renameRelPath timestamp newFileName)) with
  | some fs1 => (fs1, Except.ok (renameRelPath timestamp newFileName))
  | none => (fs, Except.error StoreError.rename)

/-- Model of `checkStorage`: probe the base directory and fall back to
initialisation; both failures are caught, so the result is a plain boolean. -/
def checkStorage (env : FsEnv) (fs : FS) : FS × Bool :=
  if fsAccess env fs STORAGE_BASE_PATH then (fs, true)
  else
    match initializeStorage env fs with
    | (fs1, Except.ok _) => (fs1, true)
    | (fs1, Except.error _) => (fs1, false)

/-! Helper lemmas about the splitting, normalisation and digit machinery. -/

theorem splitOnChar_ne_nil (sep : Char) (xs : List Char) : splitOnChar sep xs ≠ [] := by
  induction xs with
  | nil => simp [splitOnChar]
  | cons c cs ih =>
    simp only [splitOnChar]
    split
    · simp
    · split
      · simp
      · simp

theorem splitOnChar_append (sep : Char) (xs ys : List Char) :
    splitOnChar sep (xs ++ sep :: ys) = splitOnChar sep xs ++ splitOnChar sep ys := by
  induction xs with
  | nil => simp [splitOnChar]
  | cons c cs ih =>
    by_cases hc : c = sep
    · subst hc
      simp [splitOnChar, ih]
    · simp only [List.cons_append, splitOnChar, if_neg hc, List.append_eq]
      rw [ih]
      rcases h : splitOnChar sep cs with _ | ⟨s, rest⟩
      · exact absurd h (splitOnChar_ne_nil sep cs)
      · simp

theorem splitOnChar_of_not_mem (sep : Char) (xs : List Char) (h : sep ∉ xs) :
    splitOnChar sep xs = [xs] := by
  induction xs with
  | nil => rfl
  | cons c cs ih =>
    have hc : ¬(c = sep) := fun e => h (e ▸ List.mem_cons_self c cs)
    have hcs : sep ∉ cs := fun m => h (List.mem_cons_of_mem c m)
    simp only [splitOnChar, if_neg hc, ih hcs]

theorem digitChar_isDigit {m : Nat} (h : m < 10) : (Nat.digitChar m).isDigit = true := by
  interval_cases m <;> decide

theorem toDigitsCore_digits (fuel : Nat) :
    ∀ (n : Nat) (ds : List Char), (∀ c ∈ ds, c.isDigit = true) →
      ∀ c ∈ Nat.toDigitsCore 10 fuel n ds, c.isDigit = true := by
  induction fuel with
  | zero => intro n ds hds c hc; exact hds c hc
  | succ fuel ih =>
    intro n ds hds c hc
    have hd : (Nat.digitChar (n % 10)).isDigit = true :=
      digitChar_isDigit (Nat.mod_lt _ (by norm_num))
    have hcons : ∀ x ∈ Nat.digitChar (n % 10) :: ds, x.isDigit = true := by
      intro x hx
      rcases List.mem_cons.mp hx with h | h
      · exact h ▸ hd
      · exact hds x h
    simp only [Nat.toDigitsCore] at hc
    by_cases h0 : n / 10 = 0
    · rw [if_pos h0] at hc
      exact hcons c hc
    · rw [if_neg h0] at hc
      exact ih (n / 10) _ hcons c hc

theorem toDigitsCore_nil (fuel : Nat) :
    ∀ (n : Nat) (ds : List Char), Nat.toDigitsCore 10 fuel n ds = [] → ds = [] := by
  induction fuel with
  | zero => intro n ds h; exact h
  | succ fuel ih =>
    intro n ds h
    simp only [Nat.toDigitsCore] at h
    by_cases h0 : n / 10 = 0
    · rw [if_pos h0] at h
      exact absurd h (by simp)
    · rw [if_neg h0] at h
      exact absurd (ih (n / 10) _ h) (by simp)

theorem repr_data (n : Nat) : (Nat.repr n).data = Nat.toDigits 10 n := rfl

theorem repr_data_digits (n : Nat) : ∀ c ∈ (Nat.repr n).data, c.isDigit = true := by
  rw [repr_data]
  exact toDigitsCore_digits (n + 1) n [] (by intro c hc; cases hc)

theorem repr_data_ne_nil (n : Nat) : (Nat.repr n).data ≠ [] := by
  rw [repr_data]
  intro h
  simp only [Nat.toDigits, Nat.toDigitsCore] at h
  by_cases h0 : n / 10 = 0
  · rw [if_pos h0] at h
    exact absurd h (by simp)
  · rw [if_neg h0] at h
    exact absurd (toDigitsCore_nil n (n / 10) _ h) (by simp)

theorem mem_sanitizeName {s : String} {x : Char} (hx : x ∈ (sanitizeName s).data) :
    isAllowedChar x = true ∨ x = '_' := by
  simp only [sanitizeName, List.mem_map] at hx
  obtain ⟨c, _, hc⟩ := hx
  by_cases h : isAllowedChar c = true
  · left
    rw [← hc, if_pos h]
    exact h
  · right
    rw [← hc, if_neg h]

theorem slash_not_mem_sanitizeName (s : String) : '/' ∉ (sanitizeName s).data := by
  intro hx
  rcases mem_sanitizeName hx with h | h
  · exact absurd h (by decide)
  · exact absurd h (by decide)

theorem lookup_eq_none_of (l : List (String × List Byte)) (a : String)
    (h : ∀ e ∈ l, e.1 ≠ a) : List.lookup a l = none := by
  induction l with
  | nil => rfl
  | cons e es ih =>
    have he : (a == e.1) = false :=
      beq_eq_false_iff_ne.mpr (fun hh => h e (List.mem_cons_self e es) hh.symm)
    simp [List.lookup, he, ih (fun x hx => h x (List.mem_cons_of_mem e hx))]

theorem splitOnChar_uploads (u : List Char) (hu : '/' ∉ u) :
    splitOnChar '/' ("/app/storage/uploads".data ++ '/' :: u)
      = [[], "app".data, "storage".data, "uploads".data, u] := by
  rw [splitOnChar_append '/' _ u, splitOnChar_of_not_mem '/' u hu]
  have hconc : splitOnChar '/' "/app/storage/uploads".data
      = [[], "app".data, "storage".data, "uploads".data] := by decide
  rw [hconc]
  rfl

theorem foldl_normSeg_uploads (u : List Char) (h0 : u ≠ []) (h1 : u ≠ ['.'])
    (h2 : u ≠ ['.', '.']) :
    List.foldl normSeg [] [[], "app".data, "storage".data, "uploads".data, u]
      = ["app".data, "storage".data, "uploads".data, u] := by
  have hsplit : ([[], "app".data, "storage".data, "uploads".data, u] : List (List Char))
      = [[], "app".data, "storage".data, "uploads".data] ++ [u] := rfl
  have hinner : List.foldl normSeg [] [[], "app".data, "storage".data, "uploads".data]
      = ["app".data, "storage".data, "uploads".data] := by decide
  rw [hsplit, List.foldl_append, hinner, List.foldl_cons, List.foldl_nil, normSeg,
    if_neg (by rintro (h | h); exacts [h0 h, h1 h]), if_neg h2]
  rfl

theorem intercalate_uploads (u : List Char) :
    List.intercalate ['/'] ["app".data, "storage".data, "uploads".data, u]
      = "app/storage/uploads/".data ++ u := by
  simp only [List.intercalate, List.intersperse, List.flatten, List.append_nil]
  rfl

theorem pathJoin_uploads (u : String) (hslash : '/' ∉ u.data)
    (h0 : u.data ≠ []) (h1 : u.data ≠ ['.']) (h2 : u.data ≠ ['.', '.']) :
    pathJoin STORAGE_BASE_PATH ("uploads/" ++ u)
      = String.mk ("/app/storage/uploads/".data ++ u.data) ∧
    pathJoin UPLOADS_FOLDER u
      = String.mk ("/app/storage/uploads/".data ++ u.data) := by
  have hs := splitOnChar_uploads u.data hslash
  have hf := foldl_normSeg_uploads u.data h0 h1 h2
  have hi := intercalate_uploads u.data
  constructor
  · show String.mk ('/' :: List.intercalate ['/'] (List.foldl normSeg []
        (splitOnChar '/' (STORAGE_BASE_PATH ++ "/" ++ ("uploads/" ++ u)).data))) = _
    rw [show (STORAGE_BASE_PATH ++ "/" ++ ("uploads/" ++ u)).data
          = "/app/storage/uploads".data ++ '/' :: u.data from rfl, hs, hf, hi]
    rfl
  · show String.mk ('/' :: List.intercalate ['/'] (List.foldl normSeg []
        (splitOnChar '/' (UPLOADS_FOLDER ++ "/" ++ u).data))) = _
    rw [show (UPLOADS_FOLDER ++ "/" ++ u).data
          = "/app/storage/uploads".data ++ '/' :: u.data from rfl, hs, hf, hi]
    rfl

/-! Theorems settling the claims. -/

/-- C9: for the same timestamp and file name, the relative path derived by
`renameFile` equals the relative path derived by `uploadFile`: both build
`uploads/<timestamp>-<sanitized>` by the same sanitisation and concatenation. -/
theorem uploadRelPath_eq_renameRelPath (ts : Nat) (name : String) :
    uploadRelPath ts name = renameRelPath ts name := rfl

/-- C4: `deleteFile` never raises: every failure of the underlying unlink is
caught, the call returns normally for every relative path and every
filesystem, and a call on a nonexistent target leaves the store unchanged. -/
theorem deleteFile_never_raises (env : FsEnv) (fs : FS) (rel : String) :
    (deleteFile env fs rel).2 = Except.ok () ∧
    (lookupFile fs (pathJoin STORAGE_BASE_PATH rel) = none →
      deleteFile env fs rel = (fs, Except.ok ())) := by
  constructor
  · unfold deleteFile
    cases h : fsUnlink env fs (pathJoin STORAGE_BASE_PATH rel) <;> simp [h]
  · intro h
    unfold deleteFile fsUnlink
    rw [h]
    cases henv : env.unlinkFails <;> simp [henv]

/-- Witness for the deleteFile claim at a concrete nonexistent path. -/
theorem deleteFile_never_raises_w :
    deleteFile cleanEnv ⟨[], []⟩ "uploads/x" = (⟨[], []⟩, Except.ok ()) :=
  (deleteFile_never_raises cleanEnv ⟨[], []⟩ "uploads/x").2 rfl

/-- C3 (amended): every failure of `readFile` is `ReadError`: the catch-all
in `readFile` also catches the `NotFoundError` thrown by `getFilePath` for a
missing target and replaces it by `ReadError`, rather than propagating it. -/
theorem readFile_error_read (env : FsEnv) (fs : FS) (rel : String) :
    (∀ e, readFile env fs rel = Except.error e → e = StoreError.read) ∧
    (getFilePath env fs rel = Except.error StoreError.notFound →
      readFile env fs rel = Except.error StoreError.read) := by
  constructor
  · intro e he
    unfold readFile at he
    rcases hg : getFilePath env fs rel with p | p <;> simp only [hg] at he
    · exact (Except.error.inj he).symm
    · rcases hr : (if env.readFails then none else lookupFile fs p) with _ | b <;>
        simp only [hr] at he
      · exact (Except.error.inj he).symm
      · simp at he
  · intro h
    unfold readFile
    rw [h]

/-- Witness: reading a missing path yields ReadError. -/
theorem readFile_error_read_w :
    readFile cleanEnv ⟨[], []⟩ "uploads/gone" = Except.error StoreError.read :=
  (readFile_error_read cleanEnv ⟨[], []⟩ "uploads/gone").2 rfl

/-- Counterexample to C3 as stated: on a nonexistent path, `readFile` fails
with `ReadError`, not with the `NotFoundError` produced by `getFilePath`. -/
theorem readFile_notFound_counterexample :
    readFile cleanEnv ⟨[], []⟩ "uploads/missing" = Except.error StoreError.read ∧
    getFilePath cleanEnv ⟨[], []⟩ "uploads/missing" = Except.error StoreError.notFound ∧
    StoreError.read ≠ StoreError.notFound := by
  refine ⟨rfl, rfl, by decide⟩

/-- C7: `renameFile` fails exactly with `RenameError` whenever the source
does not exist or the underlying rename fails, and every failing call leaves
the filesystem unchanged. -/
theorem renameFile_failure (env : FsEnv) (fs : FS) (oldPath newFileName : String)
    (ts : Nat) :
    ((env.renameFails = true ∨
        lookupFile fs (pathJoin STORAGE_BASE_PATH oldPath) = none) →
      renameFile env fs oldPath newFileName ts = (fs, Except.error StoreError.rename)) ∧
    (∀ fs1 e, renameFile env fs oldPath newFileName ts = (fs1, Except.error e) →
      fs1 = fs ∧ e = StoreError.rename) := by
  constructor
  · intro h
    unfold renameFile fsRename
    rcases h with h | h
    · simp [h]
    · cases henv : env.renameFails <;> simp [henv, h]
  · intro fs1 e he
    unfold renameFile at he
    rcases hr : fsRename env fs (pathJoin STORAGE_BASE_PATH oldPath)
        (pathJoin STORAGE_BASE_PATH (renameRelPath ts newFileName)) with _ | fs2 <;>
      simp only [hr] at he
    · rw [Prod.mk.injEq] at he
      exact ⟨he.1.symm, (Except.error.inj he.2).symm⟩
    · rw [Prod.mk.injEq] at he
      exact absurd he.2 (by simp)

/-- Witness: renaming a nonexistent source fails with RenameError and leaves
the store unchanged. -/
theorem renameFile_failure_w :
    renameFile cleanEnv ⟨[], []⟩ "uploads/x" "y" 5
      = (⟨[], []⟩, Except.error StoreError.rename) :=
  (renameFile_failure cleanEnv ⟨[], []⟩ "uploads/x" "y" 5).1 (Or.inr rfl)

/-- C8: `checkStorage` returns a boolean rather than raising; it returns true
exactly when the base directory is accessible or initialization succeeds, and
it returns true after a fresh successful `initializeStorage`, even when the
base directory did not previously exist. -/
theorem checkStorage_spec (env : FsEnv) (fs : FS) :
    ((checkStorage env fs).2 = true ↔
      (fsAccess env fs STORAGE_BASE_PATH = true ∨
        (initializeStorage env fs).2 = Except.ok ())) ∧
    (∀ fs1, initializeStorage env fs = (fs1, Except.ok ()) →
      (checkStorage env fs1).2 = true) := by
  constructor
  · unfold checkStorage initializeStorage
    cases ha : fsAccess env fs STORAGE_BASE_PATH <;>
      cases hm : env.mkdirFails <;> simp
  · intro fs1 h
    unfold initializeStorage at h
    cases hm : env.mkdirFails <;> rw [hm] at h
    · simp only [if_neg Bool.false_ne_true] at h
      unfold checkStorage initializeStorage
      cases ha : fsAccess env fs1 STORAGE_BASE_PATH <;> simp [ha, hm]
    · simp only [if_pos rfl] at h
      cases h

/-- Witness: after initializing from an empty filesystem, checkStorage
reports success. -/
theorem checkStorage_spec_w :
    (checkStorage cleanEnv ⟨[], ["/app/storage", "/app/storage/uploads"]⟩).2 = true :=
  (checkStorage_spec cleanEnv ⟨[], []⟩).2
    ⟨[], ["/app/storage", "/app/storage/uploads"]⟩ rfl

/-- C10: path resolution joins the caller-supplied relative path directly to
the base directory with no confinement: a path with dotdot segments resolves
outside the base directory, and `getFilePath`, `readFile` and `deleteFile`
then act on the outside file. -/
theorem pathTraversal_escape :
    ((splitOnChar '/' "../etc/passwd".data).contains ['.', '.']) = true ∧
    pathJoin STORAGE_BASE_PATH "../etc/passwd" = "/app/etc/passwd" ∧
    List.take 13 "/app/etc/passwd".data ≠ "/app/storage/".data ∧
    "/app/etc/passwd" ≠ STORAGE_BASE_PATH ∧
    getFilePath cleanEnv ⟨[("/app/etc/passwd", [42])], ["/app/storage"]⟩ "../etc/passwd"
      = Except.ok "/app/etc/passwd" ∧
    readFile cleanEnv ⟨[("/app/etc/passwd", [42])], ["/app/storage"]⟩ "../etc/passwd"
      = Except.ok [42] ∧
    deleteFile cleanEnv ⟨[("/app/etc/passwd", [42])], ["/app/storage"]⟩ "../etc/passwd"
      = (⟨[], ["/app/storage"]⟩, Except.ok ()) := by
  refine ⟨by decide, rfl, by decide, by decide, rfl, rfl, rfl⟩

/-- C6 (amended): when `renameFile` succeeds and the old and new relative
paths resolve to distinct absolute paths (and the old path names no
directory, with no spurious access failure on the new path), the new path is
found afterwards and the old path fails with `NotFoundError`. -/
theorem renameFile_moves (env : FsEnv) (fs fs1 : FS)
    (oldPath newFileName newRel : String) (ts : Nat)
    (hr : renameFile env fs oldPath newFileName ts = (fs1, Except.ok newRel))
    (hdist : pathJoin STORAGE_BASE_PATH oldPath ≠ pathJoin STORAGE_BASE_PATH newRel)
    (hacc : env.accessFails (pathJoin STORAGE_BASE_PATH newRel) = false)
    (hdir : fs.dirs.contains (pathJoin STORAGE_BASE_PATH oldPath) = false) :
    getFilePath env fs1 newRel = Except.ok (pathJoin STORAGE_BASE_PATH newRel) ∧
    getFilePath env fs1 oldPath = Except.error StoreError.notFound := by
  unfold renameFile at hr
  rcases hf : fsRename env fs (pathJoin STORAGE_BASE_PATH oldPath)
      (pathJoin STORAGE_BASE_PATH (renameRelPath ts newFileName)) with _ | fs2 <;>
    simp only [hf] at hr
  · rw [Prod.mk.injEq] at hr
    exact absurd hr.2 (by simp)
  · rw [Prod.mk.injEq] at hr
    obtain ⟨h1, h2⟩ := hr
    have hnew : newRel = renameRelPath ts newFileName := (Except.ok.inj h2).symm
    subst hnew
    subst h1
    unfold fsRename at hf
    cases henv : env.renameFails <;> rw [henv] at hf
    · simp only [Bool.false_eq_true, if_neg] at hf
      rcases hl : lookupFile fs (pathJoin STORAGE_BASE_PATH oldPath) with _ | content <;>
        rw [hl] at hf
      · simp at hf
      · have hfs2 := (Option.some.inj hf).symm
        subst hfs2
        constructor
        · unfold getFilePath
          rw [if_pos]
          unfold fsAccess lookupFile
          simp [List.lookup, hacc]
        · unfold getFilePath
          rw [if_neg]
          intro hca
          unfold fsAccess at hca
          have hnone : List.lookup (pathJoin STORAGE_BASE_PATH oldPath)
              ((fs.files.filter (fun e =>
                  e.1 != pathJoin STORAGE_BASE_PATH oldPath)).filter (fun e =>
                  e.1 != pathJoin STORAGE_BASE_PATH (renameRelPath ts newFileName)))
              = none :=
            lookup_eq_none_of _ _ (by
              intro e he
              have h1 : e ∈ fs.files.filter (fun x =>
                  x.1 != pathJoin STORAGE_BASE_PATH oldPath) :=
                List.mem_of_mem_filter he
              exact bne_iff_ne.mp (List.mem_filter.mp h1).2)
          rw [lookupFile] at hca
          simp only [List.lookup, beq_eq_false_iff_ne.mpr hdist, hnone] at hca
          simp at hca
          exact absurd hca.2 (by simpa using hdir)
    · simp at hf

/-- Witness for the amended rename claim on a concrete store. -/
theorem renameFile_moves_w :
    getFilePath cleanEnv ⟨[("/app/storage/uploads/2-b", [7])],
        ["/app/storage", "/app/storage/uploads"]⟩ "uploads/2-b"
      = Except.ok (pathJoin STORAGE_BASE_PATH "uploads/2-b") ∧
    getFilePath cleanEnv ⟨[("/app/storage/uploads/2-b", [7])],
        ["/app/storage", "/app/storage/uploads"]⟩ "uploads/1-a"
      = Except.error StoreError.notFound :=
  renameFile_moves cleanEnv
    ⟨[("/app/storage/uploads/1-a", [7])], ["/app/storage", "/app/storage/uploads"]⟩
    ⟨[("/app/storage/uploads/2-b", [7])], ["/app/storage", "/app/storage/uploads"]⟩
    "uploads/1-a" "b" "uploads/2-b" 2 rfl (by decide) rfl (by decide)

/-- Counterexample to C6 as stated: with distinct path strings that resolve
to the same absolute path (join normalisation), the rename succeeds, the
returned path differs from the old one, yet `getFilePath` on the old path
still succeeds instead of failing with `NotFoundError`. -/
theorem rename_same_resolved_counterexample :
    renameFile cleanEnv ⟨[("/app/storage/uploads/123-a", [7])],
        ["/app/storage", "/app/storage/uploads"]⟩ "./uploads/123-a" "a" 123
      = (⟨[("/app/storage/uploads/123-a", [7])],
          ["/app/storage", "/app/storage/uploads"]⟩, Except.ok "uploads/123-a") ∧
    ("uploads/123-a" : String) ≠ "./uploads/123-a" ∧
    getFilePath cleanEnv ⟨[("/app/storage/uploads/123-a", [7])],
        ["/app/storage", "/app/storage/uploads"]⟩ "./uploads/123-a"
      = Except.ok "/app/storage/uploads/123-a" :=
  ⟨rfl, by decide, rfl⟩

theorem toLower_eq_dot {c : Char} (h : Char.toLower c = '.') : c = '.' := by
  simp only [Char.toLower] at h
  by_cases hc : c.toNat ≥ 65 ∧ c.toNat ≤ 90
  · exfalso
    rw [if_pos hc] at h
    have hv : (c.toNat + 32).isValidChar := Or.inl (by omega)
    rw [Char.ofNat, dif_pos hv] at h
    have h2 := congrArg Char.toNat h
    have h3 : (Char.ofNatAux (c.toNat + 32) hv).toNat = c.toNat + 32 := rfl
    have h4 : ('.' : Char).toNat = 46 := rfl
    rw [h3, h4] at h2
    omega
  · rw [if_neg hc] at h
    exact h

theorem toLower_map_not_mem_dot {l : List Char} (h : '.' ∉ l) :
    '.' ∉ l.map Char.toLower := by
  intro hm
  rcases List.mem_map.mp hm with ⟨c, hc, he⟩
  exact h (toLower_eq_dot he ▸ hc)

/-- C2 (amended): `getContentType` maps the last dot-separated segment of the
lowercased name through the extension table; for a name with no dot, the
whole lowercased name plays the role of the extension (so a dotless name such
as `pdf` yields `application/pdf`, not the octet-stream default); recognised
extensions are matched case-insensitively and unrecognised last segments give
`application/octet-stream`. -/
theorem getContentType_last_segment :
    (∀ stem ext : String, '.' ∉ ext.data →
      getContentType (stem ++ "." ++ ext)
        = extTable (String.mk (ext.data.map Char.toLower))) ∧
    (∀ name : String, '.' ∉ name.data →
      getContentType name = extTable (String.mk (name.data.map Char.toLower))) ∧
    getContentType "report 1.pdf" = "application/pdf" ∧
    getContentType "IMG.PNG" = "image/png" ∧
    getContentType "photo.JPG" = "image/jpeg" ∧
    getContentType "photo.jpeg" = "image/jpeg" ∧
    getContentType "scan.tiff" = "image/tiff" ∧
    getContentType "scan.TIF" = "image/tiff" ∧
    getContentType "archive.zip" = "application/octet-stream" := by
  refine ⟨?_, ?_, rfl, rfl, rfl, rfl, rfl, rfl, rfl⟩
  · intro stem ext hext
    have hd : (stem ++ "." ++ ext).data.map Char.toLower
        = stem.data.map Char.toLower ++ '.' :: ext.data.map Char.toLower := by
      have hdot : Char.toLower '.' = '.' := rfl
      simp [String.data_append, hdot]
    have hsp : splitOnChar '.'
          (stem.data.map Char.toLower ++ '.' :: ext.data.map Char.toLower)
        = splitOnChar '.' (stem.data.map Char.toLower)
            ++ [ext.data.map Char.toLower] := by
      rw [splitOnChar_append, splitOnChar_of_not_mem '.' _
        (toLower_map_not_mem_dot hext)]
    simp only [getContentType, extTable, hd, hsp, List.getLastD_concat]
  · intro name hname
    have hsp : splitOnChar '.' (name.data.map Char.toLower)
        = [name.data.map Char.toLower] :=
      splitOnChar_of_not_mem '.' _ (toLower_map_not_mem_dot hname)
    simp only [getContentType, extTable, hsp, List.getLastD_cons, List.getLastD_nil]

/-- Witness: a name of the form stem.ext under the amended description. -/
theorem getContentType_last_segment_w :
    getContentType ("x" ++ "." ++ "pdf")
      = extTable (String.mk ("pdf".data.map Char.toLower)) :=
  getContentType_last_segment.1 "x" "pdf" (by decide)

/-- Counterexample to C2 as stated: the dotless name pdf has no extension,
yet `getContentType` returns `application/pdf` instead of the
`application/octet-stream` default, because split and pop on a dotless name
return the whole name. -/
theorem getContentType_dotless_counterexample :
    ("pdf".data.contains '.') = false ∧
    getContentType "pdf" = "application/pdf" ∧
    "application/pdf" ≠ "application/octet-stream" :=
  ⟨rfl, rfl, by decide⟩

/-- C5: both derived relative paths embed the sanitised name after the
timestamp and dash, sanitisation preserves length, and at each position the
output holds the original character when it lies in the allowed class
a-z A-Z 0-9 dot dash and an underscore otherwise. -/
theorem sanitize_shape (n : String) (ts : Nat) :
    uploadRelPath ts n = "uploads/" ++ (Nat.repr ts ++ "-" ++ sanitizeName n) ∧
    renameRelPath ts n = "uploads/" ++ (Nat.repr ts ++ "-" ++ sanitizeName n) ∧
    (sanitizeName n).length = n.length ∧
    (∀ i, i < n.data.length →
      (sanitizeName n).data.getD i '_'
        = (if isAllowedChar (n.data.getD i '_') then n.data.getD i '_' else '_')) := by
  refine ⟨rfl, rfl, ?_, ?_⟩
  · show (n.data.map (fun c => if isAllowedChar c then c else '_')).length
      = n.data.length
    exact List.length_map _ _
  intro i hi
  have hmap : (sanitizeName n).data
      = n.data.map (fun c => if isAllowedChar c then c else '_') := rfl
  have hx : n.data[i]? = some n.data[i] := List.getElem?_eq_getElem hi
  rw [List.getD_eq_getElem?_getD, List.getD_eq_getElem?_getD, hmap,
    List.getElem?_map, hx]
  rfl

/-- Witness: position 1 of "a b" is a space, which is replaced by an
underscore. -/
theorem sanitize_shape_w : (sanitizeName "a b").data.getD 1 '_' = '_' :=
  ((sanitize_shape "a b" 0).2.2.2 1 (by decide)).trans (by decide)

/-- C1: for every buffer and non-empty name, `uploadFile` (absent spurious
I/O failures) returns the relative path `uploads/<digits>-<sanitized>` and a
subsequent `readFile` of that path on the resulting store returns a buffer
byte-identical to the input. -/
theorem upload_read_roundtrip (fs : FS) (b : List Byte) (n : String) (ts : Nat)
    (_hn : n ≠ "") :
    (uploadFile cleanEnv fs b n ts).2 = Except.ok (uploadRelPath ts n) ∧
    uploadRelPath ts n = "uploads/" ++ (Nat.repr ts ++ "-" ++ sanitizeName n) ∧
    (Nat.repr ts).data ≠ [] ∧
    (Nat.repr ts).data.all Char.isDigit = true ∧
    readFile cleanEnv (uploadFile cleanEnv fs b n ts).1 (uploadRelPath ts n)
      = Except.ok b := by
  refine ⟨rfl, rfl, repr_data_ne_nil ts, ?_, ?_⟩
  · rw [List.all_eq_true]
    exact repr_data_digits ts
  · have hudata : (Nat.repr ts ++ "-" ++ sanitizeName n).data
        = (Nat.repr ts).data ++ '-' :: (sanitizeName n).data := by
      simp [String.data_append]
    have hslash : '/' ∉ (Nat.repr ts ++ "-" ++ sanitizeName n).data := by
      rw [hudata]
      intro hm
      rcases List.mem_append.mp hm with hm | hm
      · exact absurd (repr_data_digits ts _ hm) (by decide)
      · rcases List.mem_cons.mp hm with hm | hm
        · exact absurd hm (by decide)
        · exact slash_not_mem_sanitizeName n hm
    have hdash : '-' ∈ (Nat.repr ts ++ "-" ++ sanitizeName n).data := by
      rw [hudata]
      exact List.mem_append_right _ (List.mem_cons_self _ _)
    have h0 : (Nat.repr ts ++ "-" ++ sanitizeName n).data ≠ [] := by
      intro h
      rw [h] at hdash
      cases hdash
    have h1 : (Nat.repr ts ++ "-" ++ sanitizeName n).data ≠ ['.'] := by
      intro h
      rw [h] at hdash
      simp at hdash
    have h2 : (Nat.repr ts ++ "-" ++ sanitizeName n).data ≠ ['.', '.'] := by
      intro h
      rw [h] at hdash
      simp at hdash
    obtain ⟨hP1, hP2⟩ :=
      pathJoin_uploads (Nat.repr ts ++ "-" ++ sanitizeName n) hslash h0 h1 h2
    have hup : (uploadFile cleanEnv fs b n ts).1
        = ⟨(pathJoin UPLOADS_FOLDER (Nat.repr ts ++ "-" ++ sanitizeName n), b) ::
             fs.files.filter (fun e =>
               e.1 != pathJoin UPLOADS_FOLDER (Nat.repr ts ++ "-" ++ sanitizeName n)),
           STORAGE_BASE_PATH :: UPLOADS_FOLDER :: fs.dirs⟩ := rfl
    rw [hup, show uploadRelPath ts n
          = "uploads/" ++ (Nat.repr ts ++ "-" ++ sanitizeName n) from rfl]
    simp only [readFile, getFilePath]
    rw [hP1, hP2]
    simp [fsAccess, cleanEnv, lookupFile, List.lookup]

/-- Witness: uploading one byte under the name a at timestamp 3 and reading
it back. -/
theorem upload_read_roundtrip_w :
    (uploadFile cleanEnv ⟨[], []⟩ [104] "a" 3).2 = Except.ok (uploadRelPath 3 "a") ∧
    uploadRelPath 3 "a" = "uploads/" ++ (Nat.repr 3 ++ "-" ++ sanitizeName "a") ∧
    (Nat.repr 3).data ≠ [] ∧
    (Nat.repr 3).data.all Char.isDigit = true ∧
    readFile cleanEnv (uploadFile cleanEnv ⟨[], []⟩ [104] "a" 3).1 (uploadRelPath 3 "a")
      = Except.ok [104] :=
  upload_read_roundtrip ⟨[], []⟩ [104] "a" 3 (by decide)

end FileStorage
